import Mathlib

/-!
Shallow embedding of the `lag` timing utilities (src/lag/__init__.py) and
proofs of the specified properties.

Modelling conventions:
* Clock readings from `time.perf_counter()` are abstract rationals supplied
  from outside (the clock is an external input of the program).
* A Python `with` statement is modelled by `pyWith`: the `__exit__` method is
  a state transformer together with the truthiness of its return value
  (`None` is falsy, so an exit method that returns `None` yields `false` and
  the exception is not suppressed).
* Exceptions raised by the timed block or by `func` are `Except.error`;
  `assert` failures are modelled as `Except.error` with the message string.
* Printing (`print_func`) is modelled by accumulating the printed strings in
  a list; callbacks are modelled by accumulating the arguments in a list.
-/

namespace Lag

/-- State of a `TimedContext`: `start` is set on scope entry, `endv` (the
Python attribute `end`) and `elapsed` only exist after scope exit. -/
structure TimedContext where
  start : ℚ
  endv : Option ℚ
  elapsed : Option ℚ
deriving DecidableEq, Repr

/-- Model of `TimedContext.__enter__`: record the first clock reading; `end`/`elapsed`
are not yet set. -/
def TimedContext.enter (t1 : ℚ) : TimedContext :=
  ⟨t1, none, none⟩

/-- Model of `TimedContext.__exit__`: record the second clock reading `t2`, set
`elapsed = end - start`.  The Python method returns `None`, which is falsy,
so the suppress flag is `false`. -/
def TimedContext.exitStep (tc : TimedContext) (t2 : ℚ) : TimedContext × Bool :=
  (⟨tc.start, some t2, some (t2 - tc.start)⟩, false)

/-- Semantics of a Python `with` statement: run `__exit__` on all paths; the
enclosed block's exception is suppressed exactly when `__exit__` returns a
truthy value, otherwise it propagates unchanged.  A suppressed exception
makes the statement complete normally with no value (`Except.ok none`). -/
def pyWith {σ ε α : Type} (s0 : σ) (exitFn : σ → σ × Bool) (body : Except ε α) :
    σ × Except ε (Option α) :=
  let p := exitFn s0
  match body with
  | .ok a => (p.1, .ok (some a))
  | .error e => if p.2 then (p.1, .ok none) else (p.1, .error e)

/-- Boolean error test for `Except`. -/
def isErrB {ε α : Type} : Except ε α → Bool
  | .error _ => true
  | .ok _ => false

/-- State of a `CumulativeTimings`: the instance is itself a list of the
recorded elapsed durations (`timings`, Python `self`), next to the auxiliary
data store (`datas`). -/
structure CumulativeTimings (α : Type) where
  timings : List ℚ
  datas : List α
deriving DecidableEq, Repr

/-- Model of `CumulativeTimings()` with the default `datas=None`: empty timings list
and a fresh empty data store. -/
def CumulativeTimings.init {α : Type} : CumulativeTimings α :=
  ⟨[], []⟩

/-- Model of `CumulativeTimings.__exit__`: the inherited exit bookkeeping followed by
`self.append(self.elapsed)`; the given `elapsed` is the just-computed
elapsed value. -/
def CumulativeTimings.exitScope {α : Type} (s : CumulativeTimings α) (elapsed : ℚ) :
    CumulativeTimings α :=
  { s with timings := s.timings ++ [elapsed] }

/-- Model of `CumulativeTimings.__exit__` together with the truthiness of its return
value (`None`, hence `false`: exceptions are never suppressed). -/
def CumulativeTimings.exitStep {α : Type} (s : CumulativeTimings α) (elapsed : ℚ) :
    CumulativeTimings α × Bool :=
  (s.exitScope elapsed, false)

/-- Model of `CumulativeTimings.append_data`: asserts
`len(self.datas) + 1 == len(self)` and then appends. -/
def CumulativeTimings.append_data {α : Type} (s : CumulativeTimings α) (d : α) :
    Except String (CumulativeTimings α) :=
  if s.datas.length + 1 = s.timings.length then
    .ok { s with datas := s.datas ++ [d] }
  else
    .error "append_data can only be called if your data_store has exactly one less item than your timings list."

/-- An operation performed on one `CumulativeTimings` instance: one complete
scope use (enter + exit, yielding an elapsed value) or one `append_data`
call. -/
inductive CTOp (α : Type) where
  | scopeUse (elapsed : ℚ)
  | annotate (d : α)
deriving DecidableEq, Repr

/-- One step of the `CumulativeTimings` transition system. -/
def CTstep {α : Type} (s : CumulativeTimings α) : CTOp α → Except String (CumulativeTimings α)
  | .scopeUse e => .ok (s.exitScope e)
  | .annotate d => s.append_data d

/-- Run a sequence of operations on a `CumulativeTimings` instance; an
assertion failure aborts the run. -/
def CTrun {α : Type} (s : CumulativeTimings α) : List (CTOp α) → Except String (CumulativeTimings α)
  | [] => .ok s
  | op :: rest => match CTstep s op with
    | .ok s' => CTrun s' rest
    | .error m => .error m

/-- Lock-step usage: for each pair, one completed timing followed by one
annotation. -/
def lockstepOps {α : Type} : List (ℚ × α) → List (CTOp α)
  | [] => []
  | (q, d) :: rest => CTOp.scopeUse q :: CTOp.annotate d :: lockstepOps rest

/-- A lock-step run ends successfully with `len(datas) = len(timings) = n`. -/
def lockstepOKb {α : Type} : Except String (CumulativeTimings α) → Nat → Bool
  | .ok s, n => (s.datas.length == s.timings.length) && (s.timings.length == n)
  | .error _, _ => false

/-- The two-sided length invariant claimed by the spec:
`len(data_store) ∈ \x7blen(durations) - 1, len(durations)\x7d`. -/
def lenInvariant {α : Type} (s : CumulativeTimings α) : Prop :=
  s.datas.length = s.timings.length - 1 ∨ s.datas.length = s.timings.length

instance {α : Type} (s : CumulativeTimings α) : Decidable (lenInvariant s) := by
  unfold lenInvariant; infer_instance

/-- Upper-bound invariant check on the outcome of a run: in every state
reached by a successful run, the data store is no longer than the timings
list. -/
def ubInvariantB {α : Type} : Except String (CumulativeTimings α) → Bool
  | .ok s => decide (s.datas.length ≤ s.timings.length)
  | .error _ => true

/-! ### `time_multiple_calls` and `time_arg_combinations`

`func` is modelled as a function from an argument tuple (a `List V`) to
`Except ε V`; the per-call elapsed time is supplied by a duration oracle
`dur : Nat → ℚ` indexed by the call number (it abstracts the two
`perf_counter` readings around each call). -/

/-- A value stored in the data store by `time_multiple_calls`: a Python
tuple, a bare function output, or the initial `data = None`. -/
inductive TData (V : Type) where
  | tup (l : List V)
  | val (v : V)
  | noneVal
deriving DecidableEq, Repr

/-- An error aborting the batch loop: an exception raised by `func`, or an
assertion failure from `append_data`. -/
inductive BatchErr (ε : Type) where
  | funcErr (e : ε)
  | assertErr (m : String)
deriving DecidableEq, Repr

/-- The `output_kind` selection at the top of `time_multiple_calls`,
including its exact branch structure. -/
def output_kind (return_func_args include_func_output : Bool) : String :=
  if return_func_args || include_func_output then
    if return_func_args then
      if include_func_output then "func_args_and_output"
      else "func_output"
    else "func_args"
  else "only_timings"

/-- The `data` assembled in the loop body (`data = None` then the
`if`/`elif` chain on `output_kind`). -/
def dataFor {V : Type} (kind : String) (args : List V) (out : V) : TData V :=
  if kind = "func_args_and_output" then .tup (args ++ [out])
  else if kind = "func_output" then .val out
  else if kind = "func_args" then .tup args
  else .noneVal

/-- Result of the batch loop: the final `cumul_timing` state, the trace of
argument tuples on which `func` was actually invoked (instrumentation, in
invocation order), and whether the loop completed or an error propagated. -/
structure TMCState (V ε : Type) where
  timer : CumulativeTimings (TData V)
  trace : List (List V)
  outcome : Except (BatchErr ε) Unit
deriving Repr

/-- The `for func_args in arguments` loop of `time_multiple_calls`.  Each
iteration calls `func` inside the `with cumul_timing` scope — on exception
the scope exit still appends the elapsed duration and the exception then
propagates, aborting the loop — and, unless `output_kind` is
`only_timings`, records the chosen data via `append_data`. -/
def tmcLoop {V ε : Type} (func : List V → Except ε V) (dur : Nat → ℚ) (kind : String) :
    List (List V) → Nat → CumulativeTimings (TData V) → TMCState V ε
  | [], _, ct => ⟨ct, [], .ok ()⟩
  | args :: rest, i, ct =>
    match func args with
    | .error e => ⟨ct.exitScope (dur i), [args], .error (.funcErr e)⟩
    | .ok out =>
      let ct2 := ct.exitScope (dur i)
      if kind ≠ "only_timings" then
        match ct2.append_data (dataFor kind args out) with
        | .error m => ⟨ct2, [args], .error (.assertErr m)⟩
        | .ok ct3 =>
          let r := tmcLoop func dur kind rest (i + 1) ct3
          ⟨r.timer, args :: r.trace, r.outcome⟩
      else
        let r := tmcLoop func dur kind rest (i + 1) ct2
        ⟨r.timer, args :: r.trace, r.outcome⟩

/-- Model of `time_multiple_calls`: select the `output_kind` from the two flags and
run the loop on a fresh `CumulativeTimings`. -/
def time_multiple_calls {V ε : Type} (func : List V → Except ε V) (dur : Nat → ℚ)
    (arguments : List (List V)) (return_func_args include_func_output : Bool) :
    TMCState V ε :=
  tmcLoop func dur (output_kind return_func_args include_func_output) arguments 0
    CumulativeTimings.init

/-- The value returned on normal completion: `(cumul_timing,
cumul_timing.datas)` unless `output_kind` is `only_timings`, in which case
just `cumul_timing`. -/
inductive TMCReturn (V : Type) where
  | withDatas (timer : CumulativeTimings (TData V)) (datas : List (TData V))
  | timerOnly (timer : CumulativeTimings (TData V))
deriving DecidableEq, Repr

/-- The final `return` statement of `time_multiple_calls`. -/
def tmcReturn {V : Type} (kind : String) (ct : CumulativeTimings (TData V)) : TMCReturn V :=
  if kind ≠ "only_timings" then .withDatas ct ct.datas else .timerOnly ct

/-- Model of `itertools.product`: cartesian product of the per-parameter value lists,
first iterable varying slowest. -/
def pyProduct {V : Type} : List (List V) → List (List V)
  | [] => [[]]
  | xs :: rest => xs.flatMap (fun x => (pyProduct rest).map (fun t => x :: t))

/-- Model of `time_arg_combinations`: delegate to `time_multiple_calls` on
`product(*args_base)`. -/
def time_arg_combinations {V ε : Type} (func : List V → Except ε V) (dur : Nat → ℚ)
    (args_base : List (List V)) (return_func_args include_func_output : Bool) :
    TMCState V ε :=
  time_multiple_calls func dur (pyProduct args_base) return_func_args include_func_output

/-! ### `TimerAndFeedback` -/

/-- Render a rational to one decimal place, as the f-string `0.1f` format
does for the nonnegative elapsed values at hand (round to the nearest tenth,
then print integer part, a dot, and the tenths digit). -/
def format1 (q : ℚ) : String :=
  let n : ℤ := round (q * 10)
  let sign := if n < 0 then "-" else ""
  sign ++ toString (n.natAbs / 10) ++ "." ++ toString (n.natAbs % 10)

/-- Configuration of a `TimerAndFeedback` (the timing attributes live in the
inherited `TimedContext` part). -/
structure TimerAndFeedback where
  start_msg : String
  end_msg : String
  verbose : Bool
deriving DecidableEq, Repr

/-- Model of `TimerAndFeedback.__init__`: a non-empty `end_msg` (truthy string) gets a
newline appended; an empty one is stored as is. -/
def TimerAndFeedback.init (start_msg end_msg : String) (verbose : Bool) : TimerAndFeedback :=
  ⟨start_msg, if end_msg.length > 0 then end_msg ++ "\n" else end_msg, verbose⟩

/-- Model of `print_if_verbose`: forward to `print_func` (modelled by appending to the
output list) only when `verbose` and the first argument is non-empty. -/
def TimerAndFeedback.print_if_verbose (tf : TimerAndFeedback) (msg : String)
    (out : List String) : List String :=
  if tf.verbose then
    if msg.length > 0 then out ++ [msg] else out
  else out

/-- Model of `TimerAndFeedback.__enter__`: print the start message (if verbose and
non-empty), then the inherited enter.  Returns the printed output so far. -/
def TimerAndFeedback.enterOut (tf : TimerAndFeedback) (out : List String) : List String :=
  tf.print_if_verbose tf.start_msg out

/-- Model of `TimerAndFeedback.__exit__`: the inherited exit bookkeeping (elapsed
computed from the two clock readings), then print
`end_msg + "Took \x7belapsed:0.1f\x7d seconds"`.  The method returns `None`,
hence the suppress flag `false`. -/
def TimerAndFeedback.exitStep (tf : TimerAndFeedback) (t1 t2 : ℚ) (out : List String) :
    (ℚ × List String) × Bool :=
  ((t2 - t1, tf.print_if_verbose (tf.end_msg ++ "Took " ++ format1 (t2 - t1) ++ " seconds") out),
    false)

/-- One complete scope use of a `TimerAndFeedback` whose body completes
normally: elapsed value and everything printed. -/
def TimerAndFeedback.runScope (tf : TimerAndFeedback) (t1 t2 : ℚ) : ℚ × List String :=
  (tf.exitStep t1 t2 (tf.enterOut [])).1

/-! ### `TimerAndCallback` -/

/-- A Python value that may be `None` (the sentinel stored in
`extra_callback_data` at construction). -/
inductive PVal (β : Type) where
  | pnone
  | pval (b : β)
deriving DecidableEq, Repr

/-- An argument the callback is invoked with: the bare elapsed value, or the
tuple `(elapsed, extra_callback_data)`. -/
inductive CbArg (β : Type) where
  | single (e : ℚ)
  | pair (e : ℚ) (v : PVal β)
deriving DecidableEq, Repr

/-- State of a `TimerAndCallback`: the mutable `extra_callback_data` slot
(the callback itself is modelled by recording its invocations). -/
structure TimerAndCallback (β : Type) where
  extra_callback_data : PVal β
deriving DecidableEq, Repr

/-- Model of `TimerAndCallback.__init__`: `extra_callback_data = None`. -/
def TimerAndCallback.init {β : Type} : TimerAndCallback β :=
  ⟨PVal.pnone⟩

/-- Assigning to the `extra_callback_data` slot during the scope. -/
def TimerAndCallback.setExtra {β : Type} (_ : TimerAndCallback β) (v : PVal β) :
    TimerAndCallback β :=
  ⟨v⟩

/-- The callback invocations performed by `TimerAndCallback.__exit__` after
the inherited exit bookkeeping: one call with `(elapsed,
extra_callback_data)` if the slot `is not None`, else one call with
`elapsed` alone. -/
def TimerAndCallback.exitCalls {β : Type} (t : TimerAndCallback β) (elapsed : ℚ) :
    List (CbArg β) :=
  match t.extra_callback_data with
  | .pnone => [CbArg.single elapsed]
  | .pval b => [CbArg.pair elapsed (PVal.pval b)]

/-- Model of `TimerAndCallback.__exit__` with the truthiness of its return value
(`None`, so `false`). -/
def TimerAndCallback.exitStep {β : Type} (t : TimerAndCallback β) (elapsed : ℚ) :
    List (CbArg β) × Bool :=
  (t.exitCalls elapsed, false)

/-- One complete scope use of a `TimerAndCallback` whose body completes
normally: the elapsed value and the callback invocations made on exit. -/
def TimerAndCallback.runScope {β : Type} (t : TimerAndCallback β) (t1 t2 : ℚ) :
    ℚ × List (CbArg β) :=
  (t2 - t1, (t.exitStep (t2 - t1)).1)

/-! ### The `datas` argument check of `CumulativeTimings.__init__` -/

/-- A Python object abstracted to the set of its attribute names. -/
structure PyObj where
  attrs : List String
deriving DecidableEq, Repr

/-- Python's `hasattr`. -/
def hasattr (o : PyObj) (a : String) : Bool :=
  o.attrs.contains a

/-- The attributes of a plain Python `list` instance that are relevant here:
it has `append` and the dunder `__len__` (and more), but no attribute
literally named `len`. -/
def pyListObj : PyObj :=
  ⟨["append", "extend", "pop", "insert", "remove", "clear", "count", "index",
    "reverse", "sort", "copy", "__len__", "__getitem__", "__setitem__", "__iter__",
    "__contains__", "__add__", "__mul__", "__eq__"]⟩

/-- The `datas` handling of `CumulativeTimings.__init__`: with `datas=None`
a fresh list is used; otherwise
`assert hasattr(datas, 'append') and hasattr(datas, 'len')`. -/
def cumulativeTimingsInitCheck : Option PyObj → Except String Unit
  | none => .ok ()
  | some o =>
    if hasattr o "append" && hasattr o "len" then .ok ()
    else .error "data_store needs to have methods: append and __len__"

/-- Whether a callback argument is the tuple form. -/
def CbArg.isPairForm {β : Type} : CbArg β → Bool
  | .pair _ _ => true
  | .single _ => false

/-- Durations attributed by the duration oracle to a run of consecutive
calls starting at call number `i`, one per argument tuple. -/
def dursOf {V : Type} (dur : Nat → ℚ) : Nat → List (List V) → List ℚ
  | _, [] => []
  | i, _ :: rest => dur i :: dursOf dur (i + 1) rest

/-- Example function for concrete instantiations: fails on tuples summing to
zero, otherwise returns ten times the sum. -/
def exFunc : List ℕ → Except Unit ℕ :=
  fun l => if l.sum = 0 then .error () else .ok (l.sum * 10)

/-- Example duration oracle for concrete instantiations. -/
def exDur : Nat → ℚ :=
  fun i => (i : ℚ)

/-! ### Helper lemmas -/

/-- The length of a run of durations equals the number of calls. -/
theorem dursOf_length {V : Type} (dur : Nat → ℚ) (i : Nat) (l : List (List V)) :
    (dursOf (V := V) dur i l).length = l.length := by
  induction l generalizing i with
  | nil => rfl
  | cons a rest ih => simp [dursOf, ih]

/-- The batch kind selected by the default flags is not `only_timings`. -/
theorem kind_fa_ne : ("func_args_and_output" : String) ≠ "only_timings" := by decide

/-- From a state with equally long sequences, a lock-step run (one completed
timing then one annotation, repeated) always succeeds and grows both
sequences by the number of pairs. -/
theorem lockstep_run {α : Type} (pairs : List (ℚ × α)) :
    ∀ s : CumulativeTimings α, s.datas.length = s.timings.length →
    ∃ s', CTrun s (lockstepOps pairs) = Except.ok s' ∧
      s'.datas.length = s.datas.length + pairs.length ∧
      s'.timings.length = s.timings.length + pairs.length := by
  induction pairs with
  | nil => exact fun s h => ⟨s, rfl, by simp, by simp⟩
  | cons p rest ih =>
    intro s h
    obtain ⟨q, d⟩ := p
    have hcond : s.datas.length + 1 = (s.timings ++ [q]).length := by
      simp
      omega
    have hstep : CTrun s (lockstepOps ((q, d) :: rest)) =
        CTrun ⟨s.timings ++ [q], s.datas ++ [d]⟩ (lockstepOps rest) := by
      simp only [lockstepOps, CTrun, CTstep, CumulativeTimings.exitScope,
        CumulativeTimings.append_data]
      rw [if_pos hcond]
    obtain ⟨s', hrun, hd, ht⟩ := ih ⟨s.timings ++ [q], s.datas ++ [d]⟩ (by simp; omega)
    refine ⟨s', by rw [hstep, hrun], ?_, ?_⟩ <;> simp at hd ht ⊢ <;> omega

/-- Every run step keeps the data store no longer than the timings list. -/
theorem CTrun_datas_le {α : Type} (ops : List (CTOp α)) :
    ∀ s : CumulativeTimings α, s.datas.length ≤ s.timings.length →
    ubInvariantB (CTrun s ops) = true := by
  induction ops with
  | nil => intro s h; simp [CTrun, ubInvariantB, h]
  | cons op rest ih =>
    intro s h
    match op with
    | .scopeUse q =>
      have : (s.exitScope q).datas.length ≤ (s.exitScope q).timings.length := by
        simp [CumulativeTimings.exitScope]
        omega
      simpa [CTrun, CTstep] using ih (s.exitScope q) this
    | .annotate d =>
      by_cases hc : s.datas.length + 1 = s.timings.length
      · have : ({ s with datas := s.datas ++ [d] } : CumulativeTimings α).datas.length ≤
            ({ s with datas := s.datas ++ [d] } : CumulativeTimings α).timings.length := by
          simp
          omega
        simpa [CTrun, CTstep, CumulativeTimings.append_data, if_pos hc] using
          ih { s with datas := s.datas ++ [d] } this
      · simp [CTrun, CTstep, CumulativeTimings.append_data, if_neg hc, ubInvariantB]

/-- If `func` succeeds on every tuple of `pre` and fails on `failArg`, the
default-kind batch loop runs through `pre`, appends one duration per
completed call plus one for the failing call, records one annotation per
completed call, and aborts with `func`'s error without touching the
remaining tuples. -/
theorem tmcLoop_fail {V ε : Type} (func : List V → Except ε V) (dur : Nat → ℚ) (e : ε)
    (pre : List (List V)) (failArg : List V) (post : List (List V)) :
    ∀ (i : Nat) (ct : CumulativeTimings (TData V)),
    ct.datas.length = ct.timings.length →
    (∀ a ∈ pre, isErrB (func a) = false) →
    func failArg = Except.error e →
    tmcLoop func dur "func_args_and_output" (pre ++ failArg :: post) i ct =
      ⟨⟨ct.timings ++ dursOf dur i pre ++ [dur (i + pre.length)],
        ct.datas ++ pre.map (fun a => TData.tup (a ++ (func a).toOption.toList))⟩,
       pre ++ [failArg], Except.error (BatchErr.funcErr e)⟩ := by
  induction pre with
  | nil =>
    intro i ct h hok hfail
    simp [tmcLoop, hfail, dursOf, CumulativeTimings.exitScope]
  | cons a pre ih =>
    intro i ct h hok hfail
    have hae : isErrB (func a) = false := hok a (List.mem_cons_self a pre)
    match hfa : func a with
    | .error e' => rw [hfa] at hae; simp [isErrB] at hae
    | .ok out =>
      have hcond : ct.datas.length + 1 = (ct.timings ++ [dur i]).length := by
        simp
        omega
      have hstep : tmcLoop func dur "func_args_and_output" ((a :: pre) ++ failArg :: post) i ct =
          (let r := tmcLoop func dur "func_args_and_output" (pre ++ failArg :: post) (i + 1)
            ⟨ct.timings ++ [dur i], ct.datas ++ [TData.tup (a ++ [out])]⟩
          ⟨r.timer, a :: r.trace, r.outcome⟩) := by
        simp only [List.cons_append, tmcLoop, hfa, CumulativeTimings.exitScope,
          CumulativeTimings.append_data]
        rw [if_pos kind_fa_ne, if_pos hcond]
        simp [dataFor]
      rw [hstep,
        ih (i + 1) ⟨ct.timings ++ [dur i], ct.datas ++ [TData.tup (a ++ [out])]⟩ (by simp; omega)
          (fun b hb => hok b (List.mem_cons_of_mem a hb)) hfail]
      simp [dursOf, hfa, Except.toOption]
      have harith : i + 1 + pre.length = i + (pre.length + 1) := by omega
      rw [harith]

/-- If `func` succeeds on every supplied tuple, the batch loop calls `func`
exactly on the supplied tuples in order (the trace equals the argument list)
and completes without error, for any output kind (the `append_data`
precondition is maintained by the loop itself). -/
theorem tmcLoop_ok_trace {V ε : Type} (func : List V → Except ε V) (dur : Nat → ℚ) (kind : String)
    (args : List (List V)) :
    ∀ (i : Nat) (ct : CumulativeTimings (TData V)),
    (kind = "only_timings" ∨ ct.datas.length = ct.timings.length) →
    (∀ a ∈ args, isErrB (func a) = false) →
    (tmcLoop func dur kind args i ct).trace = args ∧
    (tmcLoop func dur kind args i ct).outcome = Except.ok () := by
  induction args with
  | nil => intro i ct _ _; exact ⟨rfl, rfl⟩
  | cons a rest ih =>
    intro i ct hinv hok
    have hae : isErrB (func a) = false := hok a (List.mem_cons_self a rest)
    have hok' : ∀ b ∈ rest, isErrB (func b) = false :=
      fun b hb => hok b (List.mem_cons_of_mem a hb)
    match hfa : func a with
    | .error e' => rw [hfa] at hae; simp [isErrB] at hae
    | .ok out =>
      by_cases hk : kind = "only_timings"
      · subst hk
        have hstep : tmcLoop func dur "only_timings" (a :: rest) i ct =
            (let r := tmcLoop func dur "only_timings" rest (i + 1) (ct.exitScope (dur i))
            ⟨r.timer, a :: r.trace, r.outcome⟩) := by
          simp only [tmcLoop, hfa]
          rw [if_neg (by simp)]
        obtain ⟨h1, h2⟩ := ih (i + 1) (ct.exitScope (dur i)) (Or.inl rfl) hok'
        rw [hstep]
        exact ⟨by simpa using h1, by simpa using h2⟩
      · obtain hlen := hinv.resolve_left hk
        have hcond : ct.datas.length + 1 = (ct.timings ++ [dur i]).length := by
          simp
          omega
        have hstep : tmcLoop func dur kind (a :: rest) i ct =
            (let r := tmcLoop func dur kind rest (i + 1)
              ⟨ct.timings ++ [dur i], ct.datas ++ [dataFor kind a out]⟩
            ⟨r.timer, a :: r.trace, r.outcome⟩) := by
          simp only [tmcLoop, hfa, CumulativeTimings.exitScope, CumulativeTimings.append_data]
          rw [if_pos hk, if_pos hcond]
        obtain ⟨h1, h2⟩ := ih (i + 1) ⟨ct.timings ++ [dur i], ct.datas ++ [dataFor kind a out]⟩
          (Or.inr (by simp; omega)) hok'
        rw [hstep]
        exact ⟨by simpa using h1, by simpa using h2⟩

/-! ### Claim theorems -/

/-- Claim C1 (code evaluation at the failing input): with
`return_func_args=True, include_func_output=False` the code records the
function's return value, not the argument tuple, and with the flags
reversed it records the argument tuple, not the return value — the
`output_kind` labels of `time_multiple_calls` are swapped relative to the
flags' documented meaning. -/
theorem C1_flag_swap :
    (time_multiple_calls (fun l : List ℕ => (Except.ok (l.sum + 100) : Except Unit ℕ))
      exDur [[1, 2]] true false).timer.datas = [TData.val 103] ∧
    (time_multiple_calls (fun l : List ℕ => (Except.ok (l.sum + 100) : Except Unit ℕ))
      exDur [[1, 2]] false true).timer.datas = [TData.tup [1, 2]] ∧
    decide ([TData.val (103 : ℕ)] = [TData.tup [1, 2]]) = false :=
  ⟨rfl, rfl, by decide⟩

/-- Claim C4: an exception raised in the timed block propagates unchanged
through the scope; at that point `end` and `elapsed` have been computed with
`elapsed = end - start`.  The `__exit__` of the base context — and of every
variant, all of which return `None` (falsy) — never suppresses the
exception. -/
theorem C4_exception_propagation {σ ε α β : Type} (t1 t2 q : ℚ) (e : ε) (g : σ → σ) (s : σ)
    (ct : CumulativeTimings α) (tf : TimerAndFeedback) (out : List String)
    (tcb : TimerAndCallback β) :
    pyWith (TimedContext.enter t1) (fun tc => tc.exitStep t2) (Except.error e : Except ε Unit) =
      (⟨t1, some t2, some (t2 - t1)⟩, Except.error e) ∧
    pyWith s (fun x => (g x, false)) (Except.error e : Except ε Unit) = (g s, Except.error e) ∧
    (TimedContext.exitStep (TimedContext.enter t1) t2).2 = false ∧
    (ct.exitStep q).2 = false ∧
    (tf.exitStep t1 t2 out).2 = false ∧
    (tcb.exitStep q).2 = false :=
  ⟨rfl, rfl, rfl, rfl, rfl, rfl⟩

/-- Claim C8: on scope exit of a `TimerAndCallback`, after elapsed is
computed, the callback is invoked exactly once: with the pair
`(elapsed, extra_callback_data)` when the slot holds a value, and with
`elapsed` alone otherwise. -/
theorem C8_callback_forms {β : Type} (b : β) (t1 t2 : ℚ) :
    (TimerAndCallback.setExtra TimerAndCallback.init (PVal.pval b)).runScope t1 t2 =
      (t2 - t1, [CbArg.pair (t2 - t1) (PVal.pval b)]) ∧
    (TimerAndCallback.init (β := β)).runScope t1 t2 = (t2 - t1, [CbArg.single (t2 - t1)]) ∧
    ((TimerAndCallback.setExtra TimerAndCallback.init (PVal.pval b)).runScope t1 t2).2.length = 1 ∧
    ((TimerAndCallback.init (β := β)).runScope t1 t2).2.length = 1 :=
  ⟨rfl, rfl, rfl, rfl⟩

/-- Claim C9: assigning `None` to `extra_callback_data` is indistinguishable
from never setting it — `None` is the absent sentinel, so scope exit invokes
the callback with `elapsed` alone and never with a pair. -/
theorem C9_none_sentinel {β : Type} (t1 t2 : ℚ) :
    TimerAndCallback.setExtra (TimerAndCallback.init (β := β)) PVal.pnone =
      TimerAndCallback.init ∧
    (TimerAndCallback.setExtra (TimerAndCallback.init (β := β)) PVal.pnone).runScope t1 t2 =
      (TimerAndCallback.init (β := β)).runScope t1 t2 ∧
    ((TimerAndCallback.setExtra (TimerAndCallback.init (β := β)) PVal.pnone).runScope t1 t2).2 =
      [CbArg.single (t2 - t1)] ∧
    (((TimerAndCallback.setExtra (TimerAndCallback.init (β := β)) PVal.pnone).runScope
        t1 t2).2.filter CbArg.isPairForm) = [] :=
  ⟨rfl, rfl, rfl, rfl⟩

/-- Claim C10: the `CumulativeTimings` constructor accepts a non-`None` data
store exactly when it has attributes named `append` and `len`; a plain
Python list has `append` and `__len__` but no attribute literally named
`len`, so passing a list always trips the assertion. -/
theorem C10_init_check (o : PyObj) :
    isErrB (cumulativeTimingsInitCheck (some o)) =
      !(hasattr o "append" && hasattr o "len") ∧
    isErrB (cumulativeTimingsInitCheck (some pyListObj)) = true ∧
    hasattr pyListObj "append" = true ∧
    hasattr pyListObj "__len__" = true ∧
    hasattr pyListObj "len" = false := by
  refine ⟨?_, by decide, by decide, by decide, by decide⟩
  cases h : hasattr o "append" && hasattr o "len" <;>
    simp [cumulativeTimingsInitCheck, h, isErrB]

/-- Claim C2: `append_data` fails exactly when the data store is not one
item shorter than the timings list; two `append_data` calls with no timing
in between always fail at the second; and lock-step use from a fresh
instance always succeeds, ending with as many annotations as timings. -/
theorem C2_append_data_precondition {α : Type} (s : CumulativeTimings α) (d d' : α)
    (pairs : List (ℚ × α)) :
    isErrB (s.append_data d) = !(s.datas.length + 1 == s.timings.length) ∧
    isErrB ((s.append_data d).bind fun s' => s'.append_data d') = true ∧
    lockstepOKb (CTrun CumulativeTimings.init (lockstepOps pairs)) pairs.length = true := by
  refine ⟨?_, ?_, ?_⟩
  · by_cases h : s.datas.length + 1 = s.timings.length <;>
      simp [CumulativeTimings.append_data, h, isErrB]
  · by_cases h : s.datas.length + 1 = s.timings.length
    · have h2 : ¬((s.datas ++ [d]).length + 1 = s.timings.length) := by
        simp
        omega
      simp [CumulativeTimings.append_data, h, Except.bind, if_neg h2, isErrB]
    · simp [CumulativeTimings.append_data, h, Except.bind, isErrB]
  · obtain ⟨s', hrun, hd, ht⟩ :=
      lockstep_run pairs (CumulativeTimings.init (α := α)) rfl
    have hrun' : CTrun (⟨[], []⟩ : CumulativeTimings α) (lockstepOps pairs) =
        Except.ok s' := hrun
    simp [CumulativeTimings.init] at hd ht
    simp [CumulativeTimings.init, lockstepOKb, hrun', hd, ht]

/-- Claim C3 (counterexample): two scope uses with no annotation in between
reach a state with two timings and zero annotations, where
`len(data_store)` is neither `len(durations) - 1` nor `len(durations)`. -/
theorem C3_counterexample :
    CTrun (CumulativeTimings.init (α := ℕ)) [CTOp.scopeUse 1, CTOp.scopeUse 1] =
      Except.ok ⟨[1, 1], []⟩ ∧
    decide (lenInvariant (⟨[1, 1], []⟩ : CumulativeTimings ℕ)) = false :=
  ⟨rfl, by decide⟩

/-- Claim C3 (amended): every reachable state of a `CumulativeTimings`
instance satisfies `len(data_store) ≤ len(durations)`; the claimed two-sided
invariant fails as soon as a completed timing goes unannotated. -/
theorem C3_upper_bound {α : Type} (ops : List (CTOp α)) :
    ubInvariantB (CTrun (CumulativeTimings.init (α := α)) ops) = true :=
  CTrun_datas_le ops CumulativeTimings.init (Nat.le_refl 0)

/-- Claim C5: when `func` fails on the k-th tuple (after k successful
calls), the error propagates, the timer holds k + 1 durations — one per
completed call plus one for the failing call — the data store holds exactly
the k annotations of the completed calls, only the first k + 1 tuples were
ever passed to `func`, and the whole run coincides with the run on the
truncated argument list (no later tuple is called). -/
theorem C5_partial_results {V ε : Type} (func : List V → Except ε V) (dur : Nat → ℚ) (e : ε)
    (pre : List (List V)) (failArg : List V) (post : List (List V))
    (hok : ∀ a ∈ pre, isErrB (func a) = false)
    (hfail : func failArg = Except.error e) :
    (time_multiple_calls func dur (pre ++ failArg :: post) true true).outcome =
      Except.error (BatchErr.funcErr e) ∧
    (time_multiple_calls func dur (pre ++ failArg :: post) true true).timer.timings.length =
      pre.length + 1 ∧
    (time_multiple_calls func dur (pre ++ failArg :: post) true true).timer.datas =
      pre.map (fun a => TData.tup (a ++ (func a).toOption.toList)) ∧
    (time_multiple_calls func dur (pre ++ failArg :: post) true true).trace =
      pre ++ [failArg] ∧
    time_multiple_calls func dur (pre ++ failArg :: post) true true =
      time_multiple_calls func dur (pre ++ [failArg]) true true := by
  have h1 := tmcLoop_fail func dur e pre failArg post 0 CumulativeTimings.init rfl hok hfail
  have h2 := tmcLoop_fail func dur e pre failArg [] 0 CumulativeTimings.init rfl hok hfail
  have hkind : output_kind true true = "func_args_and_output" := rfl
  simp [CumulativeTimings.init] at h1 h2
  refine ⟨?_, ?_, ?_, ?_, ?_⟩ <;>
    simp [time_multiple_calls, hkind, CumulativeTimings.init, h1, h2, dursOf_length]

/-- Claim C6: `time_arg_combinations` delegates the cartesian product of the
per-parameter value lists to `time_multiple_calls`; when `func` always
succeeds it is called exactly once per product element, in the order where
the first iterable varies slowest and the last fastest — in particular
`([a1, a2], [b1, b2])` yields the four calls
`(a1, b1), (a1, b2), (a2, b1), (a2, b2)` in that order. -/
theorem C6_product_order {V ε : Type} (func : List V → Except ε V) (dur : Nat → ℚ)
    (args_base : List (List V)) (rfa ifo : Bool) (a1 a2 b1 b2 : V)
    (hok : ∀ a ∈ pyProduct args_base, isErrB (func a) = false) :
    time_arg_combinations func dur args_base rfa ifo =
      time_multiple_calls func dur (pyProduct args_base) rfa ifo ∧
    (time_arg_combinations func dur args_base rfa ifo).trace = pyProduct args_base ∧
    (time_arg_combinations func dur args_base rfa ifo).outcome = Except.ok () ∧
    pyProduct [[a1, a2], [b1, b2]] = [[a1, b1], [a1, b2], [a2, b1], [a2, b2]] := by
  obtain ⟨h1, h2⟩ := tmcLoop_ok_trace func dur (output_kind rfa ifo) (pyProduct args_base) 0
    CumulativeTimings.init (Or.inr rfl) hok
  exact ⟨rfl, h1, h2, by simp [pyProduct]⟩

/-- Witness for C5 at a concrete batch: `func` fails on the third tuple of
four; the trace stops right after it. -/
theorem C5_partial_results_witness :
    ((∀ a ∈ [[1], [2]], isErrB (exFunc a) = false) ∧ exFunc [0] = Except.error ()) ∧
    (time_multiple_calls exFunc exDur [[1], [2], [0], [5]] true true).trace =
      [[1], [2], [0]] :=
  ⟨⟨by decide, rfl⟩,
    (C5_partial_results exFunc exDur () [[1], [2]] [0] [[5]] (by decide) rfl).2.2.2.1⟩

/-- Witness for C6 at a concrete product: all four combinations of
`([1, 2], [3, 4])` are called, in product order. -/
theorem C6_product_order_witness :
    (∀ a ∈ pyProduct [[1, 2], [3, 4]], isErrB (exFunc a) = false) ∧
    (time_arg_combinations exFunc exDur [[1, 2], [3, 4]] true true).trace =
      [[1, 3], [1, 4], [2, 3], [2, 4]] :=
  ⟨by decide,
    (C6_product_order exFunc exDur [[1, 2], [3, 4]] true true 1 2 3 4 (by decide)).2.1⟩

/-- Claim C7: an `AnnouncingTimer` built with empty messages and
`verbose=True` still finalizes `elapsed`, emits nothing on entry, and on
exit emits exactly the single line `Took X seconds` with no blank prefix
(the constructor adds no newline to an empty end message). -/
theorem C7_empty_messages (t1 t2 : ℚ) :
    (TimerAndFeedback.init "" "" true).runScope t1 t2 =
      (t2 - t1, ["Took " ++ format1 (t2 - t1) ++ " seconds"]) ∧
    (TimerAndFeedback.init "" "" true).enterOut [] = [] ∧
    (TimerAndFeedback.init "" "" true).end_msg = "" := by
  refine ⟨?_, rfl, rfl⟩
  have hinit : TimerAndFeedback.init "" "" true = ⟨"", "", true⟩ := rfl
  have hlen : 0 < (("" : String) ++ "Took " ++ format1 (t2 - t1) ++ " seconds").length := by
    rw [String.length_append, String.length_append]
    have h8 : (" seconds").length = 8 := rfl
    omega
  rw [hinit]
  simp only [TimerAndFeedback.runScope, TimerAndFeedback.exitStep, TimerAndFeedback.enterOut,
    TimerAndFeedback.print_if_verbose]
  simp [hlen]
  exact fun _ _ => by decide

end Lag
